import Mathlib

/-!
Verification development for the quizly backend (quiz attempt engine,
YouTube URL resolver, and Gemini quiz-generation pipeline).

The definitions below are shallow embeddings of the Python source:
  * `quizly_app/models.py` (QuizAttempt, AttemptAnswer, score_percent,
    mark_completed),
  * `quizly_app/api/views.py` (StartAttemptView, SaveAnswerView,
    FinishAttemptView, AttemptResultView, _recalculate_attempt_score),
  * `quizly_app/services/utils.py` (extract_youtube_video_id,
    canonical_youtube_url, validate_quiz_schema),
  * `quizly_app/services/gemini.py` (generate_quiz_from_transcript).
Machine/state details that Django provides (database rows, timestamps)
are modelled explicitly: rows as lists, timestamps as naturals.
-/

namespace Quizly

/-! ## Data model (`quizly_app/models.py`) -/

/-- A persisted `Question` row: primary key, owning quiz, options, answer. -/
structure Question where
  id : Nat
  quizId : Nat
  question_options : List String
  answer : String
deriving DecidableEq, Repr

/-- A persisted `AttemptAnswer` row for one attempt (the attempt id is
implicit: we model the answer set of a single attempt). -/
structure AttemptAnswer where
  questionId : Nat
  selected_option : String
  is_correct : Bool
deriving DecidableEq, Repr

/-- A persisted `QuizAttempt` row.  `completed_at` is an optional timestamp
(naturals model wall-clock instants). -/
structure QuizAttempt where
  quizId : Nat
  current_question_index : Nat
  is_completed : Bool
  correct_count : Nat
  total_questions : Nat
  completed_at : Option Nat
deriving DecidableEq, Repr

/-- The mutable state of one attempt: the attempt row plus its stored
`AttemptAnswer` rows. -/
structure AttemptState where
  attempt : QuizAttempt
  answers : List AttemptAnswer
deriving DecidableEq, Repr

/-- `QuizAttempt.mark_completed`: set `is_completed` and the completion
timestamp to the current time. -/
def mark_completed (now : Nat) (a : QuizAttempt) : QuizAttempt :=
  { a with is_completed := true, completed_at := some now }

/-! ### Python `round(x, 1)` on the score (banker's rounding) -/

/-- Round-half-to-even on rationals (Python's `round` tie-breaking). -/
def roundHalfEven (x : ℚ) : ℤ :=
  let f := ⌊x⌋
  let frac := x - f
  if frac < 1/2 then f
  else if 1/2 < frac then f + 1
  else if Even f then f else f + 1

/-- Python `round(q, 1)`: round to one decimal place, ties to even. -/
def pyRound1 (q : ℚ) : ℚ := (roundHalfEven (q * 10) : ℚ) / 10

/-- `QuizAttempt.score_percent`: `0.0` when `total_questions` is falsy,
otherwise `round(correct_count / total_questions * 100.0, 1)`. -/
def score_percent (a : QuizAttempt) : ℚ :=
  if a.total_questions = 0 then 0
  else pyRound1 ((a.correct_count : ℚ) / (a.total_questions : ℚ) * 100)

/-! ## Attempt engine operations (`quizly_app/api/views.py`) -/

/-- `Question.objects.get(pk=question_id)`: look a question up by primary
key in the questions table. -/
def findQuestion (qs : List Question) (qid : Nat) : Option Question :=
  qs.find? (fun q => q.id == qid)

/-- `attempt.quiz.questions.count()`: number of questions belonging to the
given quiz. -/
def quizQuestionCount (qs : List Question) (quizId : Nat) : Nat :=
  (qs.filter (fun q => q.quizId == quizId)).length

/-- `AttemptAnswer.objects.filter(attempt=attempt, is_correct=True).count()`. -/
def countCorrect (answers : List AttemptAnswer) : Nat :=
  (answers.filter (fun a => a.is_correct)).length

/-- `_recalculate_attempt_score` (views.py):
`correct_count := count of stored answers with is_correct`;
`total_questions := quiz.questions.count() or total_questions`
(Python `or`: keep the old value only when the count is `0`). -/
def _recalculate_attempt_score (qs : List Question) (st : AttemptState) :
    QuizAttempt :=
  let correct := countCorrect st.answers
  let qcount := quizQuestionCount qs st.attempt.quizId
  { st.attempt with
      correct_count := correct
      total_questions := if qcount = 0 then st.attempt.total_questions else qcount }

/-- `AttemptAnswer.objects.update_or_create(attempt=..., question=...,
defaults={...})`: update the row for this (attempt, question) pair if one
exists, otherwise insert a new row. -/
def update_or_create (answers : List AttemptAnswer) (qid : Nat)
    (sel : String) (corr : Bool) : List AttemptAnswer :=
  if answers.any (fun a => a.questionId == qid) then
    answers.map (fun a =>
      if a.questionId == qid then
        { a with selected_option := sel, is_correct := corr }
      else a)
  else
    answers ++ [⟨qid, sel, corr⟩]

/-- First stored row for a given question, if any. -/
def lookupAnswer (answers : List AttemptAnswer) (qid : Nat) :
    Option AttemptAnswer :=
  answers.find? (fun a => a.questionId == qid)

/-- Validation failures of `SaveAnswerView.patch` (each raised before any
state mutation). -/
inductive SaveError
  | questionNotFound
  | questionNotInQuiz
  | optionNotInQuestion
deriving DecidableEq, Repr

/-- The validated body of a PATCH save-answer request
(`SaveAnswerInputSerializer`). -/
structure SaveInput where
  question_id : Nat
  selected_option : String
  current_question_index : Option Nat
  finish : Bool
deriving DecidableEq, Repr

/-- `SaveAnswerView.patch` (views.py): validate the question and option,
upsert the `AttemptAnswer`, optionally update the progress pointer,
recompute the score, and complete the attempt when `finish` is set and the
attempt is not already completed.  The whole operation is atomic. -/
def saveAnswer (qs : List Question) (now : Nat) (st : AttemptState)
    (inp : SaveInput) : Except SaveError AttemptState :=
  match findQuestion qs inp.question_id with
  | none => .error .questionNotFound
  | some q =>
    if q.quizId ≠ st.attempt.quizId then .error .questionNotInQuiz
    else if ¬ q.question_options.contains inp.selected_option then
      .error .optionNotInQuestion
    else
      let is_correct := inp.selected_option == q.answer
      let answers := update_or_create st.answers inp.question_id
        inp.selected_option is_correct
      let att₀ := match inp.current_question_index with
        | some i => { st.attempt with current_question_index := i }
        | none => st.attempt
      let att₁ := _recalculate_attempt_score qs ⟨att₀, answers⟩
      let att₂ := if inp.finish && !att₁.is_completed
        then mark_completed now att₁ else att₁
      .ok ⟨att₂, answers⟩

/-- `FinishAttemptView.post`: recompute the score, then mark completed
unless already completed. -/
def finishAttempt (qs : List Question) (now : Nat) (st : AttemptState) :
    AttemptState :=
  let att₁ := _recalculate_attempt_score qs st
  let att₂ := if !att₁.is_completed then mark_completed now att₁ else att₁
  ⟨att₂, st.answers⟩

/-- `AttemptResultView.get`: recompute the score and persist the refreshed
counters (no completion transition). -/
def resultRefresh (qs : List Question) (st : AttemptState) : AttemptState :=
  ⟨_recalculate_attempt_score qs st, st.answers⟩

/-- `StartAttemptView.post`, creation path:
`QuizAttempt.objects.create(..., total_questions=quiz.questions.count() or 10)`
with model defaults `correct_count=0`, `completed_at=None`. -/
def startAttempt (qs : List Question) (quizId : Nat) : AttemptState :=
  ⟨{ quizId := quizId
     current_question_index := 0
     is_completed := false
     correct_count := 0
     total_questions :=
       if quizQuestionCount qs quizId = 0 then 10 else quizQuestionCount qs quizId
     completed_at := none }, []⟩

/-- One attempt-engine operation (the timestamp is the wall clock at the
call). -/
inductive Op
  | save (now : Nat) (inp : SaveInput)
  | finish (now : Nat)
  | result
deriving Repr

/-- Execute one operation.  A `saveAnswer` validation failure leaves the
state unchanged (the exception is raised before any write, and the view is
wrapped in `transaction.atomic`). -/
def step (qs : List Question) (st : AttemptState) : Op → AttemptState
  | .save now inp =>
    match saveAnswer qs now st inp with
    | .ok st₁ => st₁
    | .error _ => st
  | .finish now => finishAttempt qs now st
  | .result => resultRefresh qs st

/-- Run a trace of operations; each element carries the questions table as
it stands when that operation executes (the quiz's question set can change
between requests). -/
def runTrace (st : AttemptState) : List (List Question × Op) → AttemptState
  | [] => st
  | (qs, op) :: rest => runTrace (step qs st op) rest

/-- Run a sequence of save-answer operations against a fixed questions
table. -/
def runSaves (qs : List Question) (st : AttemptState) :
    List (Nat × SaveInput) → AttemptState
  | [] => st
  | (now, inp) :: rest => runSaves qs (step qs st (.save now inp)) rest

/-! ## Score-recomputation invariant (claim C1 machinery) -/

/-- Does the stored selection equal the answer of the row's question
(as recorded in the questions table)? -/
def selectedMatchesAnswer (qs : List Question) (a : AttemptAnswer) : Bool :=
  match findQuestion qs a.questionId with
  | some q => a.selected_option == q.answer
  | none => false

/-- Every stored row's `is_correct` flag agrees with a fresh comparison of
its `selected_option` against the question's answer. -/
def answersConsistent (qs : List Question) (answers : List AttemptAnswer) : Prop :=
  ∀ a ∈ answers, selectedMatchesAnswer qs a = a.is_correct

lemma update_or_create_consistent {qs : List Question}
    {answers : List AttemptAnswer} {qid : Nat} {sel : String} {q : Question}
    (hfind : findQuestion qs qid = some q)
    (hcons : answersConsistent qs answers) :
    answersConsistent qs (update_or_create answers qid sel (sel == q.answer)) := by
  intro a ha
  unfold update_or_create at ha
  split at ha
  · rcases List.mem_map.1 ha with ⟨b, hb, hba⟩
    by_cases hbq : b.questionId == qid
    · simp only [hbq, if_pos] at hba
      subst hba
      have : b.questionId = qid := eq_of_beq hbq
      simp [selectedMatchesAnswer, this, hfind]
    · simp only [hbq, Bool.false_eq_true, if_neg, not_false_iff] at hba
      subst hba
      exact hcons b hb
  · rcases List.mem_append.1 ha with hb | hb
    · exact hcons a hb
    · have : a = ⟨qid, sel, sel == q.answer⟩ := by simpa using hb
      subst this
      simp [selectedMatchesAnswer, hfind]

lemma saveAnswer_ok_state {qs : List Question} {now : Nat}
    {st st₁ : AttemptState} {inp : SaveInput}
    (h : saveAnswer qs now st inp = .ok st₁) :
    ∃ q, findQuestion qs inp.question_id = some q ∧
      st₁.answers = update_or_create st.answers inp.question_id
        inp.selected_option (inp.selected_option == q.answer) ∧
      st₁.attempt.correct_count = countCorrect st₁.answers := by
  unfold saveAnswer at h
  split at h
  · exact absurd h (by simp)
  · rename_i q hfind
    split at h
    · exact absurd h (by simp)
    · split at h
      · exact absurd h (by simp)
      · refine ⟨q, hfind, ?_⟩
        simp only [Except.ok.injEq] at h
        subst h
        refine ⟨rfl, ?_⟩
        simp only []
        split
        · rfl
        · rfl

lemma step_invariant {qs : List Question} {st : AttemptState}
    (op : Op)
    (hcons : answersConsistent qs st.answers)
    (hcount : st.attempt.correct_count = countCorrect st.answers) :
    answersConsistent qs (step qs st op).answers ∧
      (step qs st op).attempt.correct_count = countCorrect (step qs st op).answers := by
  cases op with
  | save now inp =>
    simp only [step]
    split
    · rename_i st₁ hok
      rcases saveAnswer_ok_state hok with ⟨q, hfind, hans, hcnt⟩
      constructor
      · rw [hans]; exact update_or_create_consistent hfind hcons
      · exact hcnt
    · exact ⟨hcons, hcount⟩
  | finish now =>
    refine ⟨hcons, ?_⟩
    simp only [step, finishAttempt, _recalculate_attempt_score]
    split
    · rfl
    · rfl
  | result =>
    exact ⟨hcons, rfl⟩

lemma runSaves_invariant (qs : List Question) :
    ∀ (ops : List (Nat × SaveInput)) (st : AttemptState),
    answersConsistent qs st.answers →
    st.attempt.correct_count = countCorrect st.answers →
    answersConsistent qs (runSaves qs st ops).answers ∧
      (runSaves qs st ops).attempt.correct_count
        = countCorrect (runSaves qs st ops).answers
  | [], st, hcons, hcount => ⟨hcons, hcount⟩
  | (now, inp) :: rest, st, hcons, hcount => by
    have h := step_invariant (.save now inp) hcons hcount
    exact runSaves_invariant qs rest _ h.1 h.2

/-- C1: after any sequence of SaveAnswer operations on a freshly started
attempt, the attempt's `correct_count` equals the number of stored
`AttemptAnswer` rows whose `selected_option` equals the question's answer,
which is also exactly the number of rows whose `is_correct` flag is true:
the count is always recomputed from the stored answer set. -/
theorem correct_count_recomputed_from_answers (qs : List Question)
    (quizId : Nat) (ops : List (Nat × SaveInput)) :
    (runSaves qs (startAttempt qs quizId) ops).attempt.correct_count
      = ((runSaves qs (startAttempt qs quizId) ops).answers.filter
          (selectedMatchesAnswer qs)).length
    ∧ (runSaves qs (startAttempt qs quizId) ops).attempt.correct_count
      = countCorrect (runSaves qs (startAttempt qs quizId) ops).answers := by
  have hinit : answersConsistent qs (startAttempt qs quizId).answers := by
    intro a ha
    simp [startAttempt] at ha
  have hinv := runSaves_invariant qs ops (startAttempt qs quizId) hinit rfl
  refine ⟨?_, hinv.2⟩
  have hfilter : (runSaves qs (startAttempt qs quizId) ops).answers.filter
      (selectedMatchesAnswer qs)
      = (runSaves qs (startAttempt qs quizId) ops).answers.filter
        (fun a => a.is_correct) := by
    apply List.filter_congr
    intro a ha
    exact hinv.1 a ha
  rw [hfilter]
  exact hinv.2

/-! ## Behaviour of `total_questions` (claim C3) -/

lemma saveAnswer_ok_total {qs : List Question} {now : Nat}
    {st st₁ : AttemptState} {inp : SaveInput}
    (h : saveAnswer qs now st inp = .ok st₁) :
    st₁.attempt.total_questions
      = if quizQuestionCount qs st.attempt.quizId = 0
        then st.attempt.total_questions
        else quizQuestionCount qs st.attempt.quizId := by
  obtain ⟨qid, sel, idx, fin⟩ := inp
  unfold saveAnswer at h
  split at h
  · exact absurd h (by simp)
  · rename_i q hfind
    split at h
    · exact absurd h (by simp)
    · split at h
      · exact absurd h (by simp)
      · simp only [Except.ok.injEq] at h
        subst h
        cases idx with
        | none =>
          simp only [_recalculate_attempt_score, mark_completed]
          split <;> rfl
        | some i =>
          simp only [_recalculate_attempt_score, mark_completed]
          split <;> rfl

lemma saveAnswer_ok_completed {qs : List Question} {now : Nat}
    {st st₁ : AttemptState} {inp : SaveInput}
    (h : saveAnswer qs now st inp = .ok st₁)
    (hc : st.attempt.is_completed = true) :
    st₁.attempt.is_completed = true := by
  obtain ⟨qid, sel, idx, fin⟩ := inp
  unfold saveAnswer at h
  split at h
  · exact absurd h (by simp)
  · split at h
    · exact absurd h (by simp)
    · split at h
      · exact absurd h (by simp)
      · simp only [Except.ok.injEq] at h
        subst h
        cases idx <;>
          simp [_recalculate_attempt_score, mark_completed, hc]

/-- C3 (amended): `total_questions` is snapshotted from the quiz's question
count at attempt creation (default 10 when the quiz has none); afterwards
each SaveAnswer/Finish/Result recomputation sets it to the quiz's current
question count whenever that count is nonzero, keeping the previous value
only when the quiz currently has zero questions. -/
theorem total_questions_reset_by_recalculation :
    (∀ (qs : List Question) (quizId : Nat),
      (startAttempt qs quizId).attempt.total_questions
        = if quizQuestionCount qs quizId = 0 then 10
          else quizQuestionCount qs quizId)
    ∧ (∀ (qs : List Question) (now : Nat) (st : AttemptState),
      (finishAttempt qs now st).attempt.total_questions
        = if quizQuestionCount qs st.attempt.quizId = 0
          then st.attempt.total_questions
          else quizQuestionCount qs st.attempt.quizId)
    ∧ (∀ (qs : List Question) (st : AttemptState),
      (resultRefresh qs st).attempt.total_questions
        = if quizQuestionCount qs st.attempt.quizId = 0
          then st.attempt.total_questions
          else quizQuestionCount qs st.attempt.quizId)
    ∧ (∀ (qs : List Question) (now : Nat) (st st₁ : AttemptState)
        (inp : SaveInput),
      saveAnswer qs now st inp = .ok st₁ →
      st₁.attempt.total_questions
        = if quizQuestionCount qs st.attempt.quizId = 0
          then st.attempt.total_questions
          else quizQuestionCount qs st.attempt.quizId) := by
  refine ⟨fun qs quizId => rfl, fun qs now st => ?_, fun qs st => rfl,
    fun qs now st st₁ inp h => saveAnswer_ok_total h⟩
  simp only [finishAttempt, _recalculate_attempt_score, mark_completed]
  split <;> rfl

/-- Witness for C3 (amended): a concrete successful SaveAnswer resets
`total_questions` to the quiz's current question count. -/
theorem total_questions_reset_witness :
    (⟨⟨0, 0, false, 1, 1, none⟩, [⟨1, "a", true⟩]⟩ : AttemptState).attempt.total_questions
      = if quizQuestionCount [⟨1, 0, ["a", "b", "c", "d"], "a"⟩] 0 = 0
        then (startAttempt [⟨1, 0, ["a", "b", "c", "d"], "a"⟩] 0).attempt.total_questions
        else quizQuestionCount [⟨1, 0, ["a", "b", "c", "d"], "a"⟩] 0 :=
  total_questions_reset_by_recalculation.2.2.2
    [⟨1, 0, ["a", "b", "c", "d"], "a"⟩] 0
    (startAttempt [⟨1, 0, ["a", "b", "c", "d"], "a"⟩] 0)
    ⟨⟨0, 0, false, 1, 1, none⟩, [⟨1, "a", true⟩]⟩
    ⟨1, "a", none, false⟩ rfl

/-- Counterexample to C3 as stated: an attempt is created while its quiz
has 2 questions (`total_questions = 2`); the quiz then drops to 1 question
and a Finish operation runs, after which `total_questions` has decreased
to 1. -/
theorem total_questions_decreases_cex :
    (startAttempt [⟨0, 0, ["a", "b"], "a"⟩, ⟨1, 0, ["a", "b"], "a"⟩] 0).attempt.total_questions = 2
    ∧ (runTrace (startAttempt [⟨0, 0, ["a", "b"], "a"⟩, ⟨1, 0, ["a", "b"], "a"⟩] 0)
        [([⟨0, 0, ["a", "b"], "a"⟩], .finish 5)]).attempt.total_questions = 1
    ∧ (runTrace (startAttempt [⟨0, 0, ["a", "b"], "a"⟩, ⟨1, 0, ["a", "b"], "a"⟩] 0)
        [([⟨0, 0, ["a", "b"], "a"⟩], .finish 5)]).attempt.total_questions
      < (startAttempt [⟨0, 0, ["a", "b"], "a"⟩, ⟨1, 0, ["a", "b"], "a"⟩] 0).attempt.total_questions := by
  refine ⟨rfl, rfl, ?_⟩
  decide

/-! ## Score percentage (claim C7) -/

/-- C7: the reported score percentage is `0.0` when `total_questions = 0`,
and `round(correct_count / total_questions * 100, 1)` (one decimal place,
ties to even, as Python's `round`) when `total_questions > 0`. -/
theorem score_percent_cases (a : QuizAttempt) :
    (a.total_questions = 0 → score_percent a = 0)
    ∧ (0 < a.total_questions →
      score_percent a
        = pyRound1 ((a.correct_count : ℚ) / (a.total_questions : ℚ) * 100)) := by
  constructor
  · intro h
    simp [score_percent, h]
  · intro h
    have h0 : a.total_questions ≠ 0 := Nat.pos_iff_ne_zero.mp h
    simp [score_percent, h0]

/-- Witness for C7 at concrete attempts: `total = 0` gives score `0`, and
`correct = 1, total = 16` gives `round(6.25, 1)`. -/
theorem score_percent_cases_witness :
    score_percent ⟨0, 0, false, 3, 0, none⟩ = 0
    ∧ score_percent ⟨0, 0, false, 1, 16, none⟩
      = pyRound1 ((1 : ℚ) / (16 : ℚ) * 100) :=
  ⟨(score_percent_cases ⟨0, 0, false, 3, 0, none⟩).1 rfl,
    (score_percent_cases ⟨0, 0, false, 1, 16, none⟩).2 (by decide)⟩

/-! ## Finish idempotence (claim C9) -/

/-- C9: calling Finish on an already-completed attempt keeps
`is_completed = true` and leaves `completed_at` unchanged: the completion
timestamp is not overwritten, and the attempt never leaves the completed
state. -/
theorem finish_idempotent_on_completed (qs : List Question) (now : Nat)
    (st : AttemptState) (h : st.attempt.is_completed = true) :
    (finishAttempt qs now st).attempt.is_completed = true
    ∧ (finishAttempt qs now st).attempt.completed_at
      = st.attempt.completed_at := by
  simp [finishAttempt, _recalculate_attempt_score, h]

/-- Witness for C9 at a concrete completed attempt. -/
theorem finish_idempotent_on_completed_witness :
    (finishAttempt [] 7 ⟨⟨0, 0, true, 0, 10, some 3⟩, []⟩).attempt.is_completed = true
    ∧ (finishAttempt [] 7 ⟨⟨0, 0, true, 0, 10, some 3⟩, []⟩).attempt.completed_at
      = some 3 :=
  finish_idempotent_on_completed [] 7 ⟨⟨0, 0, true, 0, 10, some 3⟩, []⟩ rfl

/-! ## Answer upsert uniqueness (claims C8, C10) -/

/-- No two stored rows share a question id (the database-level unique
constraint `uniq_attempt_question`, here an invariant of the operations). -/
def distinctQuestions (answers : List AttemptAnswer) : Prop :=
  answers.Pairwise (fun a b => a.questionId ≠ b.questionId)

lemma update_or_create_lookup (answers : List AttemptAnswer) (qid : Nat)
    (sel : String) (corr : Bool) :
    lookupAnswer (update_or_create answers qid sel corr) qid
      = some ⟨qid, sel, corr⟩ := by
  unfold update_or_create lookupAnswer
  split
  · rename_i hany
    rw [List.find?_map]
    have hcomp : ((fun a : AttemptAnswer => a.questionId == qid) ∘
        (fun a : AttemptAnswer => if a.questionId == qid then
          { a with selected_option := sel, is_correct := corr } else a))
        = fun a : AttemptAnswer => a.questionId == qid := by
      funext a
      by_cases ha : (a.questionId == qid) = true <;>
        simp [Function.comp, ha]
    rw [hcomp]
    cases hfind : answers.find? (fun a => a.questionId == qid) with
    | none =>
      exfalso
      rcases List.any_eq_true.mp hany with ⟨a, ha, hpa⟩
      exact (List.find?_eq_none.mp hfind a ha) hpa
    | some b =>
      have hb : (b.questionId == qid) = true := by
        have hpb := List.find?_some (p := fun a : AttemptAnswer => a.questionId == qid) hfind
        simpa using hpb
      have hbq : b.questionId = qid := eq_of_beq hb
      cases b with
      | mk b1 b2 b3 =>
        simp only at hbq
        subst hbq
        simp [hb]
  · rename_i hany
    rw [List.find?_append]
    have hnone : answers.find?
        (fun a : AttemptAnswer => a.questionId == qid) = none := by
      apply List.find?_eq_none.mpr
      intro a ha hpa
      exact hany (List.any_eq_true.mpr ⟨a, ha, hpa⟩)
    simp [hnone, List.find?]

lemma update_or_create_distinct {answers : List AttemptAnswer} {qid : Nat}
    {sel : String} {corr : Bool} (h : distinctQuestions answers) :
    distinctQuestions (update_or_create answers qid sel corr) := by
  unfold update_or_create
  split
  · refine List.Pairwise.map _ ?_ h
    intro a b hab
    have ha : (if a.questionId == qid then
        { a with selected_option := sel, is_correct := corr } else a).questionId
        = a.questionId := by split <;> rfl
    have hb : (if b.questionId == qid then
        { b with selected_option := sel, is_correct := corr } else b).questionId
        = b.questionId := by split <;> rfl
    simp only [ha, hb]
    exact hab
  · rename_i hany
    rw [distinctQuestions, List.pairwise_append]
    refine ⟨h, List.pairwise_singleton _ _, ?_⟩
    intro a ha b hb
    simp only [List.mem_singleton] at hb
    subst hb
    intro hcontra
    exact hany (List.any_eq_true.mpr ⟨a, ha, by simp [hcontra]⟩)

lemma runSaves_distinct (qs : List Question) :
    ∀ (ops : List (Nat × SaveInput)) (st : AttemptState),
    distinctQuestions st.answers →
    distinctQuestions (runSaves qs st ops).answers
  | [], _, h => h
  | (now, inp) :: rest, st, h => by
    apply runSaves_distinct qs rest
    simp only [step]
    split
    · rename_i st₁ hok
      rcases saveAnswer_ok_state hok with ⟨q, _, hans, _⟩
      rw [hans]
      exact update_or_create_distinct h
    · exact h

lemma distinct_count_le_one {answers : List AttemptAnswer}
    (h : distinctQuestions answers) (qid : Nat) :
    (answers.filter (fun a => a.questionId == qid)).length ≤ 1 := by
  induction answers with
  | nil => simp
  | cons a t ih =>
    rcases List.pairwise_cons.mp h with ⟨hat, ht⟩
    by_cases ha : (a.questionId == qid) = true
    · have haq := eq_of_beq ha
      have hdrop : t.filter (fun b => b.questionId == qid) = [] := by
        rw [List.filter_eq_nil_iff]
        intro b hb hpb
        exact hat b hb (haq.trans (eq_of_beq hpb).symm)
      simp [ha, hdrop]
    · simp only [List.filter_cons, ha, Bool.false_eq_true, if_neg,
        not_false_iff]
      exact ih ht

/-- C8: re-saving an answer for the same (attempt, question) pair
overwrites the existing row: after any sequence of SaveAnswer calls the
number of rows per question is at most 1, and a successful save leaves the
stored row holding exactly the latest `selected_option` together with the
freshly recomputed `is_correct` flag. -/
theorem save_answer_upsert_unique :
    (∀ (qs : List Question) (quizId : Nat) (ops : List (Nat × SaveInput))
      (qid : Nat),
      ((runSaves qs (startAttempt qs quizId) ops).answers.filter
        (fun a => a.questionId == qid)).length ≤ 1)
    ∧ (∀ (qs : List Question) (now : Nat) (st st₁ : AttemptState)
        (inp : SaveInput),
      saveAnswer qs now st inp = .ok st₁ →
      lookupAnswer st₁.answers inp.question_id
        = (findQuestion qs inp.question_id).map
            (fun q => ⟨inp.question_id, inp.selected_option,
              inp.selected_option == q.answer⟩)) := by
  constructor
  · intro qs quizId ops qid
    have hdist : distinctQuestions
        (runSaves qs (startAttempt qs quizId) ops).answers := by
      apply runSaves_distinct qs ops
      simp [startAttempt, distinctQuestions]
    exact distinct_count_le_one hdist qid
  · intro qs now st st₁ inp h
    rcases saveAnswer_ok_state h with ⟨q, hfind, hans, _⟩
    rw [hans, hfind]
    simpa using update_or_create_lookup st.answers inp.question_id
      inp.selected_option (inp.selected_option == q.answer)

/-- Witness for C8: re-saving question 1 with a different option leaves a
single row holding the latest selection. -/
theorem save_answer_upsert_unique_witness :
    lookupAnswer (⟨⟨0, 0, false, 1, 1, none⟩,
          [⟨1, "b", true⟩]⟩ : AttemptState).answers 1
      = (findQuestion [⟨1, 0, ["a", "b", "c", "d"], "b"⟩] 1).map
          (fun q => ⟨1, "b", ("b" : String) == q.answer⟩) :=
  save_answer_upsert_unique.2 [⟨1, 0, ["a", "b", "c", "d"], "b"⟩] 9
    ⟨⟨0, 0, false, 0, 1, none⟩, [⟨1, "a", false⟩]⟩
    ⟨⟨0, 0, false, 1, 1, none⟩, [⟨1, "b", true⟩]⟩
    ⟨1, "b", none, false⟩ rfl

/-! ## SaveAnswer on a completed attempt (claim C10) -/

/-- C10: SaveAnswer does not reject a completed attempt: for a completed
attempt and a valid (question, option) input it succeeds, upserts the
answer row, recomputes `correct_count` from the stored answers, and leaves
`is_completed` true. -/
theorem save_answer_allowed_on_completed (qs : List Question) (now : Nat)
    (st : AttemptState) (inp : SaveInput) (q : Question)
    (hc : st.attempt.is_completed = true)
    (hfind : findQuestion qs inp.question_id = some q)
    (hquiz : q.quizId = st.attempt.quizId)
    (hopt : q.question_options.contains inp.selected_option = true) :
    saveAnswer qs now st inp = .ok (step qs st (.save now inp))
    ∧ (step qs st (.save now inp)).attempt.is_completed = true
    ∧ lookupAnswer (step qs st (.save now inp)).answers inp.question_id
      = some ⟨inp.question_id, inp.selected_option,
          inp.selected_option == q.answer⟩
    ∧ (step qs st (.save now inp)).attempt.correct_count
      = countCorrect (step qs st (.save now inp)).answers := by
  have hok : ∃ s, saveAnswer qs now st inp = .ok s := by
    simp only [saveAnswer, hfind]
    rw [if_neg (not_ne_iff.mpr hquiz), if_neg (not_not_intro hopt)]
    exact ⟨_, rfl⟩
  obtain ⟨st₁, hok⟩ := hok
  have hstep : step qs st (.save now inp) = st₁ := by
    simp [step, hok]
  rw [hstep]
  rcases saveAnswer_ok_state hok with ⟨q₂, hfind₂, hans, hcnt⟩
  have hqq : q₂ = q := Option.some.inj (hfind₂.symm.trans hfind)
  subst hqq
  refine ⟨hok, saveAnswer_ok_completed hok hc, ?_, hcnt⟩
  · rw [hans]
    exact update_or_create_lookup st.answers inp.question_id
      inp.selected_option (inp.selected_option == q₂.answer)

/-- Witness for C10: saving a valid answer on a concrete completed attempt
succeeds and keeps the attempt completed. -/
theorem save_answer_allowed_on_completed_witness :
    saveAnswer [⟨1, 0, ["a", "b", "c", "d"], "a"⟩] 11
        ⟨⟨0, 2, true, 0, 1, some 4⟩, []⟩ ⟨1, "d", none, false⟩
      = .ok (step [⟨1, 0, ["a", "b", "c", "d"], "a"⟩]
          ⟨⟨0, 2, true, 0, 1, some 4⟩, []⟩ (.save 11 ⟨1, "d", none, false⟩))
    ∧ (step [⟨1, 0, ["a", "b", "c", "d"], "a"⟩]
        ⟨⟨0, 2, true, 0, 1, some 4⟩, []⟩
        (.save 11 ⟨1, "d", none, false⟩)).attempt.is_completed = true
    ∧ lookupAnswer (step [⟨1, 0, ["a", "b", "c", "d"], "a"⟩]
        ⟨⟨0, 2, true, 0, 1, some 4⟩, []⟩
        (.save 11 ⟨1, "d", none, false⟩)).answers 1
      = some ⟨1, "d", ("d" : String) == "a"⟩
    ∧ (step [⟨1, 0, ["a", "b", "c", "d"], "a"⟩]
        ⟨⟨0, 2, true, 0, 1, some 4⟩, []⟩
        (.save 11 ⟨1, "d", none, false⟩)).attempt.correct_count
      = countCorrect (step [⟨1, 0, ["a", "b", "c", "d"], "a"⟩]
        ⟨⟨0, 2, true, 0, 1, some 4⟩, []⟩
        (.save 11 ⟨1, "d", none, false⟩)).answers :=
  save_answer_allowed_on_completed [⟨1, 0, ["a", "b", "c", "d"], "a"⟩] 11
    ⟨⟨0, 2, true, 0, 1, some 4⟩, []⟩ ⟨1, "d", none, false⟩
    ⟨1, 0, ["a", "b", "c", "d"], "a"⟩ rfl rfl rfl rfl

/-! ## YouTube URL resolution (`quizly_app/services/utils.py`, claim C6)

String primitives from Python are modelled on `String.data` (lists of
characters); `urlparse` is the standard library, so its result (hostname,
path, parsed query string) is the model's input. -/

/-- Characters allowed in a YouTube video id (`[A-Za-z0-9_-]`). -/
def isIdChar (c : Char) : Bool :=
  c.isAlpha || c.isDigit || c == '_' || c == '-'

/-- The regex check `_YOUTUBE_ID_RE.match` (`^[A-Za-z0-9_-]{11}$`). -/
def isYoutubeId (s : String) : Bool :=
  s.data.length == 11 && s.data.all isIdChar

/-- Python `str.strip()`: remove whitespace from both ends. -/
def pyStrip (s : String) : String :=
  ⟨((s.data.dropWhile Char.isWhitespace).reverse.dropWhile
      Char.isWhitespace).reverse⟩

/-- `parsed.path.strip("/")`: remove `/` characters from both ends. -/
def stripSlashes (s : String) : String :=
  ⟨((s.data.dropWhile (fun c => c == '/')).reverse.dropWhile
      (fun c => c == '/')).reverse⟩

/-- Python `str.startswith`. -/
def pyStartsWith (s pre : String) : Bool :=
  pre.data.isPrefixOf s.data

/-- Is `needle` a sublist of some suffix of `hay`? -/
def subInData (needle : List Char) : List Char → Bool
  | [] => needle.isPrefixOf []
  | c :: t => needle.isPrefixOf (c :: t) || subInData needle t

/-- Python substring containment (`needle in hay`). -/
def pyContains (hay needle : String) : Bool :=
  subInData needle.data hay.data

/-- Python `str.lower()` (character-wise lowercasing, as applied to the
parsed hostname). -/
def pyLower (s : String) : String :=
  ⟨s.data.map Char.toLower⟩

/-- `s.split("/", 1)[1]` under the guarantee that `s` starts with a
prefix of length `n` whose only `/` is its final character. -/
def pyDropData (s : String) (n : Nat) : String :=
  ⟨s.data.drop n⟩

/-- `s.split("/", 1)[0]`: the part of `s` before the first `/`. -/
def pyBeforeSlash (s : String) : String :=
  ⟨s.data.takeWhile (fun c => c != '/')⟩

/-- The result of Python's `urlparse` on the input URL (hostname as
parsed, path, and the `parse_qs` of the query string). -/
structure ParsedUrl where
  hostname : String
  path : String
  query : List (String × List String)
deriving Repr

/-- `parse_qs(parsed.query).get("v")`, first value when the entry is a
nonempty list (Python truthiness of `qs.get("v")`). -/
def qsFirst (query : List (String × List String)) (key : String) :
    Option String :=
  match query.lookup key with
  | some (x :: _) => some x
  | _ => none

/-- `extract_youtube_video_id` (utils.py) on an already-parsed URL:
try the `v` query parameter, then `shorts/…`, then `embed/…` (all under a
`youtube.com` host), then the first path segment for `youtu.be`; finally
check the id against the regex.  `none` models the raised
`QuizlyValidationError`. -/
def extract_youtube_video_id (p : ParsedUrl) : Option String :=
  let host := pyLower p.hostname
  let path := stripSlashes p.path
  let v₁ :=
    if pyContains host "youtube.com" then
      let vq := match qsFirst p.query "v" with
        | some s => pyStrip s
        | none => ""
      let vs := if vq == "" && pyStartsWith path "shorts/" then
          pyStrip (pyDropData path 7) else vq
      if vs == "" && pyStartsWith path "embed/" then
        pyStrip (pyDropData path 6) else vs
    else ""
  let v₂ :=
    if v₁ == "" && pyContains host "youtu.be" then
      (if path == "" then "" else pyStrip (pyBeforeSlash path))
    else v₁
  if v₂ == "" || !(isYoutubeId v₂) then none else some v₂

/-- `canonical_youtube_url` (utils.py). -/
def canonical_youtube_url (vid : String) : Option String :=
  if vid == "" || !(isYoutubeId vid) then none
  else some ("https://www.youtube.com/watch?v=" ++ vid)

/-- The VideoReferenceResolver of the spec: extract the id, then rebuild
the canonical URL (`create_quiz_for_user` in services/quiz_creation.py). -/
def resolveVideoReference (p : ParsedUrl) : Option String :=
  (extract_youtube_video_id p).bind canonical_youtube_url

/-! ### Facts about valid video ids -/

lemma isIdChar_not_ws {c : Char} (h : isIdChar c = true) :
    c.isWhitespace = false := by
  cases hw : c.isWhitespace with
  | false => rfl
  | true =>
    exfalso
    have h4 : c = ' ' ∨ c = '\t' ∨ c = '\r' ∨ c = '\n' := by
      simp [Char.isWhitespace] at hw
      tauto
    rcases h4 with h1 | h1 | h1 | h1 <;> subst h1 <;>
      exact absurd h (by decide)

lemma isIdChar_not_slash {c : Char} (h : isIdChar c = true) :
    (c == '/') = false := by
  cases hs : c == '/' with
  | false => rfl
  | true =>
    have hc : c = '/' := eq_of_beq hs
    subst hc
    exact absurd h (by decide)

lemma dropWhile_eq_self_of_false {p : Char → Bool} {l : List Char}
    (h : ∀ c ∈ l, p c = false) : l.dropWhile p = l := by
  cases l with
  | nil => rfl
  | cons a t =>
    simp [List.dropWhile_cons, h a (List.mem_cons_self a t)]

lemma takeWhile_eq_self_of_true {p : Char → Bool} :
    ∀ {l : List Char}, (∀ c ∈ l, p c = true) → l.takeWhile p = l
  | [], _ => rfl
  | a :: t, h => by
    rw [List.takeWhile_cons, h a (List.mem_cons_self a t)]
    simp only [if_true]
    rw [takeWhile_eq_self_of_true (fun c hc => h c (List.mem_cons_of_mem a hc))]

lemma dropWhile_append_ne_nil {p : Char → Bool} {l : List Char}
    (hne : l ≠ []) (h : ∀ c ∈ l, p c = false) (m : List Char) :
    (l ++ m).dropWhile p = l ++ m := by
  cases l with
  | nil => exact absurd rfl hne
  | cons a t =>
    simp [List.dropWhile_cons, h a (List.mem_cons_self a t)]

lemma youtubeId_facts {id : String} (h : isYoutubeId id = true) :
    id.data.length = 11 ∧ ∀ c ∈ id.data, isIdChar c = true := by
  simp only [isYoutubeId, Bool.and_eq_true, beq_iff_eq] at h
  exact ⟨h.1, fun c hc => List.all_eq_true.mp h.2 c hc⟩

lemma id_beq_empty_false {id : String} (h : id.data.length = 11) :
    (id == "") = false := by
  cases he : id == "" with
  | false => rfl
  | true =>
    have : id = "" := eq_of_beq he
    subst this
    simp at h

lemma pyStrip_id {id : String} (h : ∀ c ∈ id.data, isIdChar c = true) :
    pyStrip id = id := by
  unfold pyStrip
  rw [dropWhile_eq_self_of_false (fun c hc => isIdChar_not_ws (h c hc)),
    dropWhile_eq_self_of_false
      (fun c hc => isIdChar_not_ws (h c (List.mem_reverse.mp hc))),
    List.reverse_reverse]

lemma dropTrailingSlashes_append (l : List Char) {id : String}
    (h : ∀ c ∈ id.data, isIdChar c = true) (hne : id.data ≠ []) :
    ((l ++ id.data).reverse.dropWhile (fun c => c == '/')).reverse
      = l ++ id.data := by
  rw [List.reverse_append,
    dropWhile_append_ne_nil (by simpa using hne)
      (fun c hc => isIdChar_not_slash (h c (List.mem_reverse.mp hc)))
      l.reverse]
  simp

lemma stripSlashes_slash_id {id : String}
    (h : ∀ c ∈ id.data, isIdChar c = true) :
    stripSlashes ("/" ++ id) = id := by
  unfold stripSlashes
  have hdata : ("/" ++ id).data = '/' :: id.data := by
    simp [String.data_append]
  rw [hdata, List.dropWhile_cons]
  simp only [show (('/' : Char) == '/') = true from rfl, if_true]
  rw [dropWhile_eq_self_of_false (fun c hc => isIdChar_not_slash (h c hc)),
    dropWhile_eq_self_of_false
      (fun c hc => isIdChar_not_slash (h c (List.mem_reverse.mp hc))),
    List.reverse_reverse]

lemma stripSlashes_slashPre {pre : String} {id : String} {a : Char}
    {t : List Char} (hpd : pre.data = a :: t) (ha : (a == '/') = false)
    (h : ∀ c ∈ id.data, isIdChar c = true) (hne : id.data ≠ []) :
    stripSlashes ("/" ++ pre ++ id) = pre ++ id := by
  unfold stripSlashes
  have hdata : ("/" ++ pre ++ id).data = '/' :: (pre.data ++ id.data) := by
    rw [String.data_append ("/" ++ pre) id, String.data_append "/" pre]
    rfl
  rw [hdata, List.dropWhile_cons]
  simp only [show (('/' : Char) == '/') = true from rfl, if_true]
  rw [hpd, List.cons_append, List.dropWhile_cons]
  simp only [ha, Bool.false_eq_true, if_false]
  rw [← List.cons_append, ← hpd, dropTrailingSlashes_append pre.data h hne]
  apply String.ext
  rw [String.data_append pre id]

/-- C6: the resolver is a pure function (hence deterministic), and the
long-form, shortened, shorts and embed URL shapes carrying the same valid
11-character id all extract that id and yield the identical canonical URL
`https://www.youtube.com/watch?v=<id>`. -/
theorem resolver_canonicalizes_all_shapes (id : String)
    (hid : isYoutubeId id = true) :
    extract_youtube_video_id ⟨"www.youtube.com", "/watch", [("v", [id])]⟩ = some id
    ∧ extract_youtube_video_id ⟨"youtu.be", "/" ++ id, []⟩ = some id
    ∧ extract_youtube_video_id ⟨"www.youtube.com", "/shorts/" ++ id, []⟩ = some id
    ∧ extract_youtube_video_id ⟨"www.youtube.com", "/embed/" ++ id, []⟩ = some id
    ∧ resolveVideoReference ⟨"www.youtube.com", "/watch", [("v", [id])]⟩
        = some ("https://www.youtube.com/watch?v=" ++ id)
    ∧ resolveVideoReference ⟨"youtu.be", "/" ++ id, []⟩
        = some ("https://www.youtube.com/watch?v=" ++ id)
    ∧ resolveVideoReference ⟨"www.youtube.com", "/shorts/" ++ id, []⟩
        = some ("https://www.youtube.com/watch?v=" ++ id)
    ∧ resolveVideoReference ⟨"www.youtube.com", "/embed/" ++ id, []⟩
        = some ("https://www.youtube.com/watch?v=" ++ id) := by
  obtain ⟨hlen, hchars⟩ := youtubeId_facts hid
  have hne : id.data ≠ [] := by
    intro h0
    rw [h0] at hlen
    simp at hlen
  have hstrip : pyStrip id = id := pyStrip_id hchars
  have hbe : (id == "") = false := id_beq_empty_false hlen
  have hne2 : id ≠ "" := by
    intro h0
    subst h0
    simp at hlen
  have hcanon : canonical_youtube_url id
      = some ("https://www.youtube.com/watch?v=" ++ id) := by
    simp [canonical_youtube_url, hbe, hid]
  have hwatch : extract_youtube_video_id
      ⟨"www.youtube.com", "/watch", [("v", [id])]⟩ = some id := by
    have hcont : pyContains (pyLower "www.youtube.com") "youtube.com" = true := by
      decide
    have hq : qsFirst [("v", [id])] "v" = some id := by
      simp [qsFirst, List.lookup]
    simp [extract_youtube_video_id, hcont, hq, hstrip, hbe, hne2, hid]
  have hshort : extract_youtube_video_id
      ⟨"youtu.be", "/" ++ id, []⟩ = some id := by
    have hcont1 : pyContains (pyLower "youtu.be") "youtube.com" = false := by
      decide
    have hcont2 : pyContains (pyLower "youtu.be") "youtu.be" = true := by
      decide
    have hpath : stripSlashes ("/" ++ id) = id := stripSlashes_slash_id hchars
    have hbefore : pyBeforeSlash id = id := by
      unfold pyBeforeSlash
      rw [takeWhile_eq_self_of_true (fun c hc => by
        simp [bne, isIdChar_not_slash (hchars c hc)])]
    simp [extract_youtube_video_id, qsFirst, hcont1, hcont2, hpath, hbe,
      hne2, hbefore, hstrip, hid]
  have hshorts : extract_youtube_video_id
      ⟨"www.youtube.com", "/shorts/" ++ id, []⟩ = some id := by
    have hcont : pyContains (pyLower "www.youtube.com") "youtube.com" = true := by
      decide
    have hass : ("/shorts/" : String) ++ id = "/" ++ "shorts/" ++ id := rfl
    have hpath : stripSlashes ("/shorts/" ++ id) = "shorts/" ++ id := by
      rw [hass]
      exact stripSlashes_slashPre
        (rfl : ("shorts/" : String).data = 's' :: ['h', 'o', 'r', 't', 's', '/'])
        rfl hchars hne
    have hsw : pyStartsWith ("shorts/" ++ id) "shorts/" = true := by
      unfold pyStartsWith
      rw [String.data_append "shorts/" id]
      exact List.isPrefixOf_iff_prefix.mpr (List.prefix_append _ _)
    have hdrop : pyDropData ("shorts/" ++ id) 7 = id := by
      unfold pyDropData
      rw [String.data_append "shorts/" id,
        show (7 : Nat) = ("shorts/" : String).data.length from rfl,
        List.drop_left]
    simp [extract_youtube_video_id, qsFirst, hcont, hpath, hsw, hdrop,
      hstrip, hbe, hne2, hid]
  have hembed : extract_youtube_video_id
      ⟨"www.youtube.com", "/embed/" ++ id, []⟩ = some id := by
    have hcont : pyContains (pyLower "www.youtube.com") "youtube.com" = true := by
      decide
    have hass : ("/embed/" : String) ++ id = "/" ++ "embed/" ++ id := rfl
    have hpath : stripSlashes ("/embed/" ++ id) = "embed/" ++ id := by
      rw [hass]
      exact stripSlashes_slashPre
        (rfl : ("embed/" : String).data = 'e' :: ['m', 'b', 'e', 'd', '/'])
        rfl hchars hne
    have hnsw : pyStartsWith ("embed/" ++ id) "shorts/" = false := by
      unfold pyStartsWith
      rw [String.data_append "embed/" id]
      rfl
    have hsw : pyStartsWith ("embed/" ++ id) "embed/" = true := by
      unfold pyStartsWith
      rw [String.data_append "embed/" id]
      exact List.isPrefixOf_iff_prefix.mpr (List.prefix_append _ _)
    have hdrop : pyDropData ("embed/" ++ id) 6 = id := by
      unfold pyDropData
      rw [String.data_append "embed/" id,
        show (6 : Nat) = ("embed/" : String).data.length from rfl,
        List.drop_left]
    simp [extract_youtube_video_id, qsFirst, hcont, hpath, hnsw, hsw, hdrop,
      hstrip, hbe, hne2, hid]
  refine ⟨hwatch, hshort, hshorts, hembed, ?_, ?_, ?_, ?_⟩ <;>
    simp [resolveVideoReference, hwatch, hshort, hshorts, hembed, hcanon]

/-- Witness for C6 at the concrete id `dQw4w9WgXcQ`. -/
theorem resolver_canonicalizes_all_shapes_witness :
    extract_youtube_video_id
      ⟨"www.youtube.com", "/watch", [("v", ["dQw4w9WgXcQ"])]⟩
      = some "dQw4w9WgXcQ"
    ∧ resolveVideoReference ⟨"youtu.be", "/" ++ "dQw4w9WgXcQ", []⟩
      = some ("https://www.youtube.com/watch?v=" ++ "dQw4w9WgXcQ") :=
  ⟨(resolver_canonicalizes_all_shapes "dQw4w9WgXcQ" (by decide)).1,
    (resolver_canonicalizes_all_shapes "dQw4w9WgXcQ" (by decide)).2.2.2.2.2.1⟩

/-! ## Gemini quiz generation
(`services/gemini.py` and `validate_quiz_schema` in `services/utils.py`)

The generative model is an oracle `Nat → GeminiResponse` giving the
outcome of the n-th `_call_gemini` invocation.  Responses are abstracted
to the result of `parse_ai_quiz_json` on the raw text: empty text, text
without a parsable JSON document, or a parsed JSON value; vendor-side
`ClientError` and any other exception raised by the call are the remaining
cases. -/

/-- An abstract JSON value (the result of `json.loads`). -/
inductive JValue
  | str (s : String)
  | num (n : Int)
  | bool (b : Bool)
  | null
  | arr (xs : List JValue)
  | obj (fields : List (String × JValue))
deriving Repr

mutual
/-- Python `repr`-style rendering used by `str(...)` below nesting level 0
(quotes around nested strings; an approximation of CPython's `repr`
sufficient for the validator, which only trims and compares these). -/
def pyReprV (top : Bool) : JValue → String
  | .str s => if top then s else "'" ++ s ++ "'"
  | .num n => toString n
  | .bool b => cond b "True" "False"
  | .null => "None"
  | .arr xs => "[" ++ pyReprList xs ++ "]"
  | .obj fs => "\x7b" ++ pyReprFields fs ++ "\x7d"

def pyReprList : List JValue → String
  | [] => ""
  | [x] => pyReprV false x
  | x :: xs => pyReprV false x ++ ", " ++ pyReprList xs

def pyReprFields : List (String × JValue) → String
  | [] => ""
  | [(k, v)] => "'" ++ k ++ "': " ++ pyReprV false v
  | (k, v) :: fs => "'" ++ k ++ "': " ++ pyReprV false v ++ ", " ++ pyReprFields fs
end

/-- Python `str(...)` on a JSON-derived value. -/
def pyStr (v : JValue) : String := pyReprV true v

/-- `dict.get(key, default)` on a parsed JSON object. -/
def jGetD (fields : List (String × JValue)) (key : String) (d : JValue) :
    JValue :=
  (fields.lookup key).getD d

/-- A question of a validated quiz draft. -/
structure QuestionDraft where
  question_title : String
  question_options : List String
  answer : String
deriving DecidableEq, Repr

/-- A validated quiz draft (`validate_quiz_schema`'s return value). -/
structure QuizDraft where
  title : String
  description : String
  questions : List QuestionDraft
deriving DecidableEq, Repr

/-- The distinct `QuizlyValidationError` raise sites of the generation
path (schema checks, parse failures, empty output). -/
inductive VErr
  | transcriptEmpty
  | emptyOutput
  | noJsonObject
  | notParsable
  | rootNotObject
  | titleMissing
  | descriptionMissing
  | questionsNotList
  | questionsNot10
  | qNotObject (idx : Nat)
  | qTitleMissing (idx : Nat)
  | qOptionsNot4 (idx : Nat)
  | qEmptyOption (idx : Nat)
  | qOptionsNotDistinct (idx : Nat)
  | qAnswerNotInOptions (idx : Nat)
deriving DecidableEq, Repr

/-- The per-question part of `validate_quiz_schema` (utils.py): trims the
title, options and answer, requires exactly 4 distinct non-empty options
and an answer among them. -/
def validateQuestion (idx : Nat) (q : JValue) : Except VErr QuestionDraft :=
  match q with
  | .obj fields =>
    let q_title := pyStrip (pyStr (jGetD fields "question_title" (.str "")))
    let answer := pyStrip (pyStr (jGetD fields "answer" (.str "")))
    if q_title == "" then .error (.qTitleMissing idx)
    else
      match fields.lookup "question_options" with
      | some (.arr opts) =>
        if ¬ opts.length = 4 then .error (.qOptionsNot4 idx)
        else
          let cleaned := opts.map (fun o => pyStrip (pyStr o))
          if cleaned.any (fun o => o == "") then .error (.qEmptyOption idx)
          else if ¬ cleaned.dedup.length = 4 then
            .error (.qOptionsNotDistinct idx)
          else if ¬ cleaned.contains answer then
            .error (.qAnswerNotInOptions idx)
          else .ok ⟨q_title, cleaned, answer⟩
      | _ => .error (.qOptionsNot4 idx)
  | _ => .error (.qNotObject idx)

/-- The `for idx, q in enumerate(questions, start=1)` loop of
`validate_quiz_schema`: first failure wins. -/
def validateQuestions (idx : Nat) :
    List JValue → Except VErr (List QuestionDraft)
  | [] => .ok []
  | q :: rest =>
    match validateQuestion idx q with
    | .error e => .error e
    | .ok d =>
      match validateQuestions (idx + 1) rest with
      | .error e => .error e
      | .ok ds => .ok (d :: ds)

/-- `validate_quiz_schema` (utils.py) on a parsed JSON object. -/
def validate_quiz_schema (fields : List (String × JValue)) :
    Except VErr QuizDraft :=
  let title := pyStrip (pyStr (jGetD fields "title" (.str "")))
  let description := pyStrip (pyStr (jGetD fields "description" (.str "")))
  if title == "" then .error .titleMissing
  else if description == "" then .error .descriptionMissing
  else
    match fields.lookup "questions" with
    | some (.arr qlist) =>
      if ¬ qlist.length = 10 then .error .questionsNot10
      else
        match validateQuestions 1 qlist with
        | .error e => .error e
        | .ok qs => .ok ⟨title, description, qs⟩
    | _ => .error .questionsNotList

/-- Outcome of one `_call_gemini` invocation, abstracted to the result of
`parse_ai_quiz_json` on the response text. -/
inductive GeminiResponse
  | emptyText
  | unparsable
  | payload (v : JValue)
  | clientError (status : Option Nat)
  | crash
deriving Repr

/-- Terminal errors of `generate_quiz_from_transcript` (each corresponds
to a distinct raise site / message in gemini.py). -/
inductive GenError
  | rateLimit
  | clientFailed (status : Option Nat)
  | validation (e : VErr)
  | unexpected
  | exhausted
deriving DecidableEq, Repr

/-- The `except ClientError` handler: HTTP 429 becomes the quota message,
everything else the generic client-failure message; both re-raise
immediately. -/
def mapClientError (status : Option Nat) : GenError :=
  if status == some 429 then .rateLimit else .clientFailed status

/-- Result of one outer loop iteration of `generate_quiz_from_transcript`. -/
inductive AttemptOutcome
  | success (d : QuizDraft)
  | verr (e : VErr)
  | fatal (e : GenError)
deriving Repr

/-- One outer iteration: generate, parse, validate; on a schema failure,
one repair call (`build_fix_prompt`), parse, validate again.  `k` is the
index of the next oracle call; the second component is the next unused
index (so the iteration consumed `result.2 - k` model calls).
A `ClientError` or unexpected exception anywhere is fatal; every
`QuizlyValidationError` is reported as `verr` for the outer handler. -/
def attemptOnce (oracle : Nat → GeminiResponse) (k : Nat) :
    AttemptOutcome × Nat :=
  match oracle k with
  | .clientError status => (.fatal (mapClientError status), k + 1)
  | .crash => (.fatal .unexpected, k + 1)
  | .emptyText => (.verr .emptyOutput, k + 1)
  | .unparsable => (.verr .noJsonObject, k + 1)
  | .payload v =>
    match v with
    | .obj fields =>
      match validate_quiz_schema fields with
      | .ok d => (.success d, k + 1)
      | .error _ =>
        match oracle (k + 1) with
        | .clientError status => (.fatal (mapClientError status), k + 2)
        | .crash => (.fatal .unexpected, k + 2)
        | .emptyText => (.verr .noJsonObject, k + 2)
        | .unparsable => (.verr .noJsonObject, k + 2)
        | .payload v2 =>
          match v2 with
          | .obj f2 =>
            match validate_quiz_schema f2 with
            | .ok d => (.success d, k + 2)
            | .error e => (.verr e, k + 2)
          | _ => (.verr .rootNotObject, k + 2)
    | _ => (.verr .rootNotObject, k + 1)

/-- The `for attempt in range(1, max_attempts + 1)` loop: a validation
failure retries (after `time.sleep(1.0)`) while attempts remain, then the
last error is re-raised; success and fatal errors return immediately.
The fuel is the number of remaining attempts. -/
def runLoop (oracle : Nat → GeminiResponse) :
    Nat → Nat → Except GenError QuizDraft × Nat
  | k, 0 => (.error .exhausted, k)
  | k, fuel + 1 =>
    match attemptOnce oracle k with
    | (.success d, j) => (.ok d, j)
    | (.fatal e, j) => (.error e, j)
    | (.verr e, j) =>
      if fuel = 0 then (.error (.validation e), j)
      else runLoop oracle j fuel

/-- `generate_quiz_from_transcript`: reject an empty transcript
(`build_quiz_prompt`), then run up to `maxAttempts` outer iterations.
Returns the result together with the total number of model calls made. -/
def generate_quiz_from_transcript (transcript : String)
    (oracle : Nat → GeminiResponse) (maxAttempts : Nat := 3) :
    Except GenError QuizDraft × Nat :=
  if pyStrip transcript == "" then (.error (.validation .transcriptEmpty), 0)
  else runLoop oracle 0 maxAttempts

/-- The structural contract of a validated question (claim C2). -/
def validQuestionDraft (q : QuestionDraft) : Prop :=
  q.question_options.length = 4 ∧ q.question_options.Nodup ∧
    (∀ o ∈ q.question_options, o ≠ "") ∧ q.answer ∈ q.question_options

/-- The structural contract of a validated draft (claim C2). -/
def validQuizDraft (d : QuizDraft) : Prop :=
  d.questions.length = 10 ∧ ∀ q ∈ d.questions, validQuestionDraft q

/-! ### Schema validation guarantees (claim C2) -/

lemma validateQuestion_ok {idx : Nat} {q : JValue} {d : QuestionDraft}
    (h : validateQuestion idx q = .ok d) : validQuestionDraft d := by
  cases q with
  | obj fields =>
    simp only [validateQuestion] at h
    by_cases ht :
        (pyStrip (pyStr (jGetD fields "question_title" (.str ""))) == "") = true
    · rw [if_pos ht] at h
      exact absurd h (by simp)
    · rw [if_neg ht] at h
      cases hlook : fields.lookup "question_options" with
      | none =>
        simp only [hlook] at h
        exact absurd h (by simp)
      | some v =>
        cases v with
        | arr opts =>
          simp only [hlook] at h
          by_cases h4 : opts.length = 4
          · rw [if_neg (not_not_intro h4)] at h
            by_cases he :
                ((opts.map (fun o => pyStrip (pyStr o))).any
                  (fun o => o == "")) = true
            · rw [if_pos he] at h
              exact absurd h (by simp)
            · rw [if_neg he] at h
              by_cases hd :
                  (opts.map (fun o => pyStrip (pyStr o))).dedup.length = 4
              · rw [if_neg (not_not_intro hd)] at h
                by_cases hm :
                    ((opts.map (fun o => pyStrip (pyStr o))).contains
                      (pyStrip (pyStr (jGetD fields "answer" (.str "")))))
                      = true
                · rw [if_neg (not_not_intro hm)] at h
                  simp only [Except.ok.injEq] at h
                  subst h
                  have hclen :
                      (opts.map (fun o => pyStrip (pyStr o))).length = 4 := by
                    simp [h4]
                  unfold validQuestionDraft
                  refine ⟨hclen, ?_, ?_, ?_⟩
                  · have hsub := List.dedup_sublist
                      (opts.map (fun o => pyStrip (pyStr o)))
                    have heq := hsub.eq_of_length (by rw [hd, hclen])
                    rw [← heq]
                    exact List.nodup_dedup _
                  · intro o ho hoe
                    apply he
                    exact List.any_eq_true.mpr ⟨o, ho, by simp [hoe]⟩
                  · exact List.elem_iff.mp hm
                · rw [if_pos (by simpa using hm)] at h
                  exact absurd h (by simp)
              · rw [if_pos hd] at h
                exact absurd h (by simp)
          · rw [if_pos h4] at h
            exact absurd h (by simp)
        | str s => simp only [hlook] at h; exact absurd h (by simp)
        | num n => simp only [hlook] at h; exact absurd h (by simp)
        | bool b => simp only [hlook] at h; exact absurd h (by simp)
        | null => simp only [hlook] at h; exact absurd h (by simp)
        | obj f2 => simp only [hlook] at h; exact absurd h (by simp)
  | str s => exact absurd h (by simp [validateQuestion])
  | num n => exact absurd h (by simp [validateQuestion])
  | bool b => exact absurd h (by simp [validateQuestion])
  | null => exact absurd h (by simp [validateQuestion])
  | arr xs => exact absurd h (by simp [validateQuestion])

lemma validateQuestions_ok :
    ∀ {idx : Nat} {qlist : List JValue} {ds : List QuestionDraft},
    validateQuestions idx qlist = .ok ds →
    ds.length = qlist.length ∧ ∀ q ∈ ds, validQuestionDraft q := by
  intro idx qlist
  induction qlist generalizing idx with
  | nil =>
    intro ds h
    simp only [validateQuestions] at h
    simp only [Except.ok.injEq] at h
    subst h
    simp
  | cons q rest ih =>
    intro ds h
    simp only [validateQuestions] at h
    cases hq : validateQuestion idx q with
    | error e =>
      simp only [hq] at h
      exact absurd h (by simp)
    | ok d =>
      simp only [hq] at h
      cases hrest : validateQuestions (idx + 1) rest with
      | error e =>
        simp only [hrest] at h
        exact absurd h (by simp)
      | ok ds₂ =>
        simp only [hrest] at h
        simp only [Except.ok.injEq] at h
        subst h
        obtain ⟨hl, hall⟩ := ih hrest
        refine ⟨by simp [hl], ?_⟩
        intro p hp
        rcases List.mem_cons.mp hp with hp | hp
        · subst hp
          exact validateQuestion_ok hq
        · exact hall p hp

lemma validate_quiz_schema_ok {fields : List (String × JValue)}
    {d : QuizDraft} (h : validate_quiz_schema fields = .ok d) :
    validQuizDraft d := by
  simp only [validate_quiz_schema] at h
  by_cases ht : (pyStrip (pyStr (jGetD fields "title" (.str ""))) == "") = true
  · rw [if_pos ht] at h
    exact absurd h (by simp)
  · rw [if_neg ht] at h
    by_cases hdesc :
        (pyStrip (pyStr (jGetD fields "description" (.str ""))) == "") = true
    · rw [if_pos hdesc] at h
      exact absurd h (by simp)
    · rw [if_neg hdesc] at h
      cases hlook : fields.lookup "questions" with
      | none =>
        simp only [hlook] at h
        exact absurd h (by simp)
      | some v =>
        cases v with
        | arr qlist =>
          simp only [hlook] at h
          by_cases h10 : qlist.length = 10
          · rw [if_neg (not_not_intro h10)] at h
            cases hqs : validateQuestions 1 qlist with
            | error e =>
              simp only [hqs] at h
              exact absurd h (by simp)
            | ok qs =>
              simp only [hqs] at h
              simp only [Except.ok.injEq] at h
              subst h
              obtain ⟨hl, hall⟩ := validateQuestions_ok hqs
              exact ⟨by simp [hl, h10], hall⟩
          · rw [if_pos h10] at h
            exact absurd h (by simp)
        | str s => simp only [hlook] at h; exact absurd h (by simp)
        | num n => simp only [hlook] at h; exact absurd h (by simp)
        | bool b => simp only [hlook] at h; exact absurd h (by simp)
        | null => simp only [hlook] at h; exact absurd h (by simp)
        | obj f2 => simp only [hlook] at h; exact absurd h (by simp)

lemma attemptOnce_success {oracle : Nat → GeminiResponse} {k : Nat}
    {d : QuizDraft} {j : Nat}
    (h : attemptOnce oracle k = (.success d, j)) : validQuizDraft d := by
  unfold attemptOnce at h
  cases h₀ : oracle k with
  | emptyText => rw [h₀] at h; exact absurd h (by simp)
  | unparsable => rw [h₀] at h; exact absurd h (by simp)
  | clientError status => rw [h₀] at h; exact absurd h (by simp)
  | crash => rw [h₀] at h; exact absurd h (by simp)
  | payload v =>
    rw [h₀] at h
    cases v with
    | str s => simp at h
    | num n => simp at h
    | bool b => simp at h
    | null => simp at h
    | arr xs => simp at h
    | obj fields =>
      simp only at h
      cases hv : validate_quiz_schema fields with
      | ok d₁ =>
        simp only [hv] at h
        simp only [Prod.mk.injEq, AttemptOutcome.success.injEq] at h
        rw [← h.1]
        exact validate_quiz_schema_ok hv
      | error e =>
        simp only [hv] at h
        cases h₁ : oracle (k + 1) with
        | emptyText => rw [h₁] at h; exact absurd h (by simp)
        | unparsable => rw [h₁] at h; exact absurd h (by simp)
        | clientError status => rw [h₁] at h; exact absurd h (by simp)
        | crash => rw [h₁] at h; exact absurd h (by simp)
        | payload v₂ =>
          rw [h₁] at h
          cases v₂ with
          | str s => simp at h
          | num n => simp at h
          | bool b => simp at h
          | null => simp at h
          | arr xs => simp at h
          | obj f₂ =>
            simp only at h
            cases hv₂ : validate_quiz_schema f₂ with
            | ok d₂ =>
              simp only [hv₂] at h
              simp only [Prod.mk.injEq, AttemptOutcome.success.injEq] at h
              rw [← h.1]
              exact validate_quiz_schema_ok hv₂
            | error e₂ =>
              simp only [hv₂] at h
              exact absurd h (by simp)

lemma runLoop_ok_valid {oracle : Nat → GeminiResponse} :
    ∀ {fuel k : Nat} {d : QuizDraft} {j : Nat},
    runLoop oracle k fuel = (.ok d, j) → validQuizDraft d := by
  intro fuel
  induction fuel with
  | zero =>
    intro k d j h
    simp [runLoop] at h
  | succ n ih =>
    intro k d j h
    simp only [runLoop] at h
    cases ha : attemptOnce oracle k with
    | mk outcome j₁ =>
      cases outcome with
      | success d₁ =>
        simp only [ha] at h
        simp only [Prod.mk.injEq, Except.ok.injEq] at h
        rw [← h.1]
        exact attemptOnce_success ha
      | fatal e =>
        simp only [ha] at h
        exact absurd h (by simp)
      | verr e =>
        simp only [ha] at h
        by_cases hn : n = 0
        · subst hn
          simp at h
        · rw [if_neg hn] at h
          exact ih h

/-- C2: whenever `generate_quiz_from_transcript` returns successfully —
on the direct path or through the repair call — the returned draft has
exactly 10 questions, each with exactly 4 distinct non-empty options and
an answer present verbatim in that question's options. -/
theorem generation_success_schema (transcript : String)
    (oracle : Nat → GeminiResponse) (maxAttempts : Nat) (d : QuizDraft)
    (j : Nat)
    (h : generate_quiz_from_transcript transcript oracle maxAttempts
      = (.ok d, j)) :
    validQuizDraft d := by
  unfold generate_quiz_from_transcript at h
  split at h
  · exact absurd h (by simp)
  · exact runLoop_ok_valid h

/-- A well-formed question payload used by the C2 witness. -/
def sampleQuestionJson : JValue :=
  .obj [("question_title", .str "q"),
    ("question_options", .arr [.str "a", .str "b", .str "c", .str "d"]),
    ("answer", .str "a")]

/-- A schema-valid quiz payload (10 questions). -/
def sampleQuizJson : JValue :=
  .obj [("title", .str "t"), ("description", .str "s"),
    ("questions", .arr (List.replicate 10 sampleQuestionJson))]

/-- A schema-invalid quiz payload (9 questions), triggering the repair
call. -/
def sampleBadQuizJson : JValue :=
  .obj [("title", .str "t"), ("description", .str "s"),
    ("questions", .arr (List.replicate 9 sampleQuestionJson))]

/-- Witness for C2: a run whose first response is schema-invalid (9
questions) succeeds through the repair call, and the resulting draft
satisfies the schema contract. -/
theorem generation_success_schema_witness :
    validQuizDraft ⟨"t", "s",
      List.replicate 10 ⟨"q", ["a", "b", "c", "d"], "a"⟩⟩ :=
  generation_success_schema "tr"
    (fun k => if k = 0 then .payload sampleBadQuizJson
      else .payload sampleQuizJson) 3
    ⟨"t", "s", List.replicate 10 ⟨"q", ["a", "b", "c", "d"], "a"⟩⟩ 2
    rfl

/-! ### Bounded retries and the retry policy (claims C4, C5) -/

lemma attemptOnce_snd_le (oracle : Nat → GeminiResponse) (k : Nat) :
    (attemptOnce oracle k).2 ≤ k + 2 := by
  unfold attemptOnce
  cases oracle k with
  | emptyText => simp
  | unparsable => simp
  | clientError status => simp
  | crash => simp
  | payload v =>
    cases v <;> simp only []
    case obj fields =>
      cases validate_quiz_schema fields with
      | ok d => simp
      | error e =>
        simp only []
        cases oracle (k + 1) with
        | emptyText => simp
        | unparsable => simp
        | clientError status => simp
        | crash => simp
        | payload v₂ =>
          cases v₂ <;> simp only [] <;> try omega
          case obj f₂ =>
            cases validate_quiz_schema f₂ with
            | ok d => simp
            | error e₂ => simp
    all_goals omega

lemma runLoop_calls_le (oracle : Nat → GeminiResponse) :
    ∀ (fuel k : Nat), (runLoop oracle k fuel).2 ≤ k + 2 * fuel := by
  intro fuel
  induction fuel with
  | zero =>
    intro k
    simp [runLoop]
  | succ n ih =>
    intro k
    simp only [runLoop]
    have hao := attemptOnce_snd_le oracle k
    cases ha : attemptOnce oracle k with
    | mk outcome j =>
      rw [ha] at hao
      cases outcome with
      | success d => simpa using by omega
      | fatal e => simpa using by omega
      | verr e =>
        by_cases hn : n = 0
        · subst hn
          simpa using by omega
        · simp only [if_neg hn]
          have hrec := ih j
          simp only at hao
          omega

/-- C4: each outer attempt makes at most one repair call (at most 2 model
calls), the whole sequence with `max_attempts = 3` makes at most 6 model
calls in total, a fatal outcome (`ClientError`, unexpected exception) is
returned immediately without any retry, and a validation-class failure is
retried by running the next attempt — so generation terminates after a
bounded number of model calls. -/
theorem generation_bounded_retry :
    (∀ (oracle : Nat → GeminiResponse) (k : Nat),
      (attemptOnce oracle k).2 ≤ k + 2)
    ∧ (∀ (oracle : Nat → GeminiResponse) (k : Nat),
      (runLoop oracle k 3).2 ≤ k + 6)
    ∧ (∀ (oracle : Nat → GeminiResponse) (k fuel : Nat) (e : GenError)
        (j : Nat), attemptOnce oracle k = (.fatal e, j) →
      runLoop oracle k (fuel + 1) = (.error e, j))
    ∧ (∀ (oracle : Nat → GeminiResponse) (k fuel : Nat) (e : VErr)
        (j : Nat), attemptOnce oracle k = (.verr e, j) →
      runLoop oracle k (fuel + 2) = runLoop oracle j (fuel + 1))
    ∧ (∀ (transcript : String) (oracle : Nat → GeminiResponse),
      (generate_quiz_from_transcript transcript oracle 3).2 ≤ 6) := by
  refine ⟨attemptOnce_snd_le, fun oracle k => ?_, ?_, ?_, ?_⟩
  · have := runLoop_calls_le oracle 3 k
    omega
  · intro oracle k fuel e j h
    simp [runLoop, h]
  · intro oracle k fuel e j h
    simp [runLoop, h]
  · intro transcript oracle
    unfold generate_quiz_from_transcript
    split
    · simp
    · have := runLoop_calls_le oracle 3 0
      simpa using this

/-- Witness for C4: concrete oracles exercising the per-attempt bound,
the total bound, immediate fatality of a client error, and the retry of a
validation failure. -/
theorem generation_bounded_retry_witness :
    (attemptOnce (fun _ => .crash) 0).2 ≤ 2
    ∧ (runLoop (fun _ => .crash) 0 3).2 ≤ 6
    ∧ runLoop (fun _ => .clientError (some 500)) 0 1
      = (.error (.clientFailed (some 500)), 1)
    ∧ runLoop (fun _ => .emptyText) 0 2 = runLoop (fun _ => .emptyText) 1 1 :=
  ⟨generation_bounded_retry.1 (fun _ => .crash) 0,
    generation_bounded_retry.2.1 (fun _ => .crash) 0,
    generation_bounded_retry.2.2.1 (fun _ => .clientError (some 500)) 0 0
      (.clientFailed (some 500)) 1 rfl,
    generation_bounded_retry.2.2.2.1 (fun _ => .emptyText) 0 0
      .emptyOutput 1 rfl⟩

/-- C5: an HTTP 429 `ClientError` from the model is mapped to the distinct
quota error, terminates the whole generation immediately after that single
call (no retry, no further model call), and that error is distinguishable
from every schema-validation failure. -/
theorem rate_limit_terminal (oracle : Nat → GeminiResponse) (k fuel : Nat)
    (h : oracle k = .clientError (some 429)) :
    attemptOnce oracle k = (.fatal .rateLimit, k + 1)
    ∧ runLoop oracle k (fuel + 1) = (.error .rateLimit, k + 1)
    ∧ ∀ e : VErr, GenError.rateLimit ≠ GenError.validation e := by
  have h₁ : attemptOnce oracle k = (.fatal .rateLimit, k + 1) := by
    unfold attemptOnce
    rw [h]
    simp [mapClientError]
  exact ⟨h₁, by simp [runLoop, h₁], fun e => by simp⟩

/-- Witness for C5: a run whose first call hits HTTP 429 ends at once with
the quota error after exactly one model call. -/
theorem rate_limit_terminal_witness :
    attemptOnce (fun _ => .clientError (some 429)) 0 = (.fatal .rateLimit, 1)
    ∧ runLoop (fun _ => .clientError (some 429)) 0 3
      = (.error .rateLimit, 1)
    ∧ GenError.rateLimit ≠ GenError.validation VErr.questionsNot10 :=
  ⟨(rate_limit_terminal (fun _ => .clientError (some 429)) 0 2 rfl).1,
    (rate_limit_terminal (fun _ => .clientError (some 429)) 0 2 rfl).2.1,
    (rate_limit_terminal (fun _ => .clientError (some 429)) 0 2 rfl).2.2
      VErr.questionsNot10⟩

end Quizly
